import Mathlib

/-!
Verification of the natural-language specification of the `up_patty`
adapter (`src/up_patty/up_patty.py`) against a shallow embedding of its
code.  The adapter launches an external planner as a child process,
streams its output, enforces a timeout, parses the plan artifact the
planner writes, and validates the parsed plan.

Strings are embedded as `List Char`; the Python string operations used
by the code (`strip`, `rstrip`, `split(': ')`, `'\n'.join`,
`readlines`) are given executable definitions below.  The external
collaborators (PDDL writer, artifact file, plan parser, plan validator,
the child process itself) are modelled by an environment record
`SolveEnv` describing their observable behaviour during one call, and
`_solve` becomes the pure function `solve` from the stored options
mapping and that environment to the returned result plus the other
observable effects (mutated options, child-process fate, the command
line handed to the process launcher, the string handed to the plan
parser).
-/

namespace UpPatty

abbrev Str : Type := List Char

def str (s : String) : Str := s.data

/-- Python's default `str.strip`/`str.rstrip` whitespace set:
space, tab, newline, carriage return, vertical tab, form feed. -/
def isWs (c : Char) : Bool :=
  c == ' ' || c == '\t' || c == '\n' || c == '\r' ||
    c == Char.ofNat 11 || c == Char.ofNat 12

/-- Embedding of Python `str.lstrip()`. -/
def stripLeft (s : Str) : Str := s.dropWhile isWs

/-- Embedding of Python `str.rstrip()` (used by `_stream_output`). -/
def stripRight (s : Str) : Str := (s.reverse.dropWhile isWs).reverse

/-- Embedding of Python `str.strip()` (used on each artifact line). -/
def pyStrip (s : Str) : Str := stripRight (stripLeft s)

/-- Embedding of Python `file.readlines()`: split the content into
lines, each line keeping its trailing newline; a final fragment with no
newline is kept as a last line. -/
def readlines : Str → List Str
  | [] => []
  | c :: rest =>
    if c = '\n' then ['\n'] :: readlines rest
    else
      match readlines rest with
      | [] => [[c]]
      | l :: ls => (c :: l) :: ls

/-- Embedding of Python `s.split(': ')`: split on every non-overlapping
occurrence of the two-character separator, scanning left to right. -/
def splitCS : Str → List Str
  | [] => [[]]
  | [c] => [[c]]
  | c1 :: c2 :: rest =>
    if c1 = ':' ∧ c2 = ' ' then [] :: splitCS rest
    else
      match splitCS (c2 :: rest) with
      | [] => [[c1]]
      | p :: ps => (c1 :: p) :: ps

/-- Split on every newline character (Python `s.split('\n')`). -/
def splitNL : Str → List Str
  | [] => [[]]
  | c :: rest =>
    if c = '\n' then [] :: splitNL rest
    else
      match splitNL rest with
      | [] => [[c]]
      | p :: ps => (c :: p) :: ps

/-- Embedding of Python `'\n'.join`. -/
def joinNL : List Str → Str
  | [] => []
  | [t] => t
  | t :: t' :: rest => t ++ '\n' :: joinNL (t' :: rest)

/-- The per-line transformation `a.strip().split(': ')[1]` from
`_solve` (line 193).  `none` models the `IndexError` Python raises when
the stripped line has no `': '` occurrence. -/
def lineText (l : Str) : Option Str := (splitCS (pyStrip l)).get? 1

/-- The transformation applied to all artifact lines; `none` as soon as
one line raises. -/
def lineTexts : List Str → Option (List Str)
  | [] => some []
  | l :: ls =>
    match lineText l, lineTexts ls with
    | some t, some ts => some (t :: ts)
    | _, _ => none

/-- Predicate: `needle` occurs as a contiguous substring of `hay`. -/
def containsSub (needle hay : Str) : Prop := ∃ s t, hay = s ++ needle ++ t

def digitChar (d : Nat) : Char := Char.ofNat (48 + d)

def natDigitsAux : Nat → Nat → Str → Str
  | 0, _, acc => acc
  | fuel + 1, n, acc =>
    if n = 0 then acc else natDigitsAux fuel (n / 10) (digitChar (n % 10) :: acc)

/-- Decimal digits of a natural number, most significant first. -/
def natDigits (n : Nat) : Str := if n = 0 then ['0'] else natDigitsAux n n []

/-- Embedding of Python `str(i)` for an `int`, as interpolated by the
f-string building the error message. -/
def intStr (i : Int) : Str :=
  if i < 0 then '-' :: natDigits i.natAbs else natDigits i.toNat

/-- The segmentation-fault note appended for exit code `-11`. -/
def segNote : Str := str " - The error might be a segmentation fault (SIGSEGV)."

/-- The error message built at lines 179-181 of `up_patty.py`. -/
def errorMsg (rc : Int) : Str :=
  (str "The planner failed with return code " ++ intStr rc ++ str ".") ++
    (if rc = -11 then segNote else [])

def timeoutMsg : Str := str "Planner timed out."

def warnMsg : Str := str "Plan validation failed - the plan may not be correct"

/-- Message of the `IndexError` raised by `split(': ')[1]` on a line
with no separator, as stringified by the catch-all handler. -/
def indexErrMsg : Str := str "list index out of range"

/-- The engine name (property `name`, lines 58-60). -/
def engineName : Str := str "patty"

/-- The `self._args` options mapping; a Python dict with insertion
order, embedded as an association list. -/
abbrev ArgsMap := List (Str × Str)

def savePlanKey : Str := str "--save-plan"

/-- Embedding of `dict.get(k, d)`. -/
def alistGet (m : ArgsMap) (k d : Str) : Str :=
  match m with
  | [] => d
  | p :: rest => if p.1 = k then p.2 else alistGet rest k d

/-- Embedding of `k in dict`. -/
def alistHas (m : ArgsMap) (k : Str) : Bool :=
  match m with
  | [] => false
  | p :: rest => p.1 == k || alistHas rest k

/-- Embedding of `dict.pop(k)`'s effect on the mapping. -/
def alistPop (m : ArgsMap) (k : Str) : ArgsMap :=
  match m with
  | [] => []
  | p :: rest => if p.1 = k then alistPop rest k else p :: alistPop rest k

/-- Embedding of `chain.from_iterable([[k, v] for k, v in args.items()])`. -/
def flattenPairs : ArgsMap → List Str
  | [] => []
  | p :: rest => p.1 :: p.2 :: flattenPairs rest

inductive PGStatus
  | SOLVED_SATISFICING
  | TIMEOUT
  | INTERNAL_ERROR
deriving DecidableEq

inductive LogLevel
  | INFO
  | WARNING
  | ERROR
deriving DecidableEq

structure LogMessage where
  level : LogLevel
  message : Str
deriving DecidableEq

/-- The outcome object returned by `_solve`: status, optional plan
(a sequential plan embedded as its ordered list of action texts),
engine name, log messages. -/
structure PlanGenerationResult where
  status : PGStatus
  plan : Option (List Str)
  engine_name : Str
  log_messages : List LogMessage
deriving DecidableEq

/-- Fate of the child process at the end of the call. -/
inductive ChildState
  | notStarted
  | running
  | killed
  | exited (rc : Int)
deriving DecidableEq

/-- What the external validator would report for this problem/plan
pair; `_validate_plan` collapses everything but `valid` to `False`. -/
inductive ValidationOutcome
  | valid
  | invalid
  | raisedExc
deriving DecidableEq

/-- Embedding of `_validate_plan` (lines 89-119): `True` exactly when
the validator reports status VALID; any other status, an unparseable
plan, or an exception inside the validator yields `False`. -/
def validatePlan (o : ValidationOutcome) : Bool :=
  match o with
  | .valid => true
  | .invalid => false
  | .raisedExc => false

/-- Observable behaviour of the external world during one `_solve`
call: the temporary directory path, the stored executable path, whether
the PDDL writer raises (and with what message), whether the child hits
the timeout, its exit code otherwise, the artifact file (content, or
the message of the exception `open`/`read` raises), whether the plan
parser raises, and the validator's verdict. -/
structure SolveEnv where
  tmpdir : Str
  executable : Str
  writerExc : Option Str
  timedOut : Bool
  returnCode : Int
  artifact : Except Str Str
  parserExc : Option Str
  validatorOutcome : ValidationOutcome

def domainFile (env : SolveEnv) : Str := env.tmpdir ++ str "/domain.pddl"

def problemFile (env : SolveEnv) : Str := env.tmpdir ++ str "/problem.pddl"

def defaultDump (env : SolveEnv) : Str := env.tmpdir ++ str "/plan.dump"

/-- The command list handed to `subprocess.Popen` (lines 140-142). -/
def buildCommand (env : SolveEnv) (dump : Str) (rest : ArgsMap) : List Str :=
  [str "python", env.executable, str "-o", domainFile env, str "-f",
    problemFile env, savePlanKey, dump] ++ flattenPairs rest

def internalError (m : Str) : PlanGenerationResult :=
  ⟨.INTERNAL_ERROR, none, engineName, [⟨.ERROR, m⟩]⟩

/-- Everything observable about one `_solve` call: the returned result,
the options mapping afterwards (the call may pop `--save-plan`), the
child-process fate, the command line handed to the launcher (`none` if
the writer raised before launch), the resolved artifact path, and the
string handed to `parse_plan_string` (`none` if never reached). -/
structure SolveOutput where
  result : PlanGenerationResult
  args : ArgsMap
  child : ChildState
  command : Option (List Str)
  savePlanPath : Option Str
  parserInput : Option Str
deriving DecidableEq

/-- Modelled from the spec: the plan parser is the external collaborator
`PDDLReader.parse_plan_string` (not part of this repository), consumed
"as an opaque service mapping a newline-joined action-text block plus
the original problem into a structured ordered plan", one action per
line of the block. -/
def parsePlanString (s : Str) : List Str := if s = [] then [] else splitNL s

/-- The part of `_solve` from `process.wait` on (lines 162-211):
timeout, exit-code check, artifact read, line transformation
(`IndexError` on a separator-free line), plan parsing, validation.
Returns the result, the child fate, and the parser input. -/
def runPhase (env : SolveEnv) : PlanGenerationResult × ChildState × Option Str :=
  if env.timedOut then
    (⟨.TIMEOUT, none, engineName, [⟨.INFO, timeoutMsg⟩]⟩, .killed, none)
  else if env.returnCode ≠ 0 then
    (internalError (errorMsg env.returnCode), .exited env.returnCode, none)
  else
    match env.artifact with
    | .error m => (internalError m, .exited 0, none)
    | .ok content =>
      match lineTexts (readlines content) with
      | none => (internalError indexErrMsg, .exited 0, none)
      | some ts =>
        let planStr := joinNL ts
        match env.parserExc with
        | some m => (internalError m, .exited 0, some planStr)
        | none =>
          if validatePlan env.validatorOutcome then
            (⟨.SOLVED_SATISFICING, some (parsePlanString planStr), engineName, []⟩,
              .exited 0, some planStr)
          else
            (⟨.SOLVED_SATISFICING, some [], engineName, [⟨.WARNING, warnMsg⟩]⟩,
              .exited 0, some planStr)

/-- Embedding of `_solve` (lines 121-220).  The writer runs first; if
it raises, the catch-all converts the exception before the options
mapping is touched or the process launched.  Otherwise the artifact
path is resolved from the options (popping `--save-plan`), the command
line is built, and the process phase runs. -/
def solve (args : ArgsMap) (env : SolveEnv) : SolveOutput :=
  match env.writerExc with
  | some m => ⟨internalError m, args, .notStarted, none, none, none⟩
  | none =>
    let dump := alistGet args savePlanKey (defaultDump env)
    let args' := if alistHas args savePlanKey then alistPop args savePlanKey else args
    let cmd := buildCommand env dump args'
    let rp := runPhase env
    ⟨rp.1, args', rp.2.1, some cmd, some dump, rp.2.2⟩

/-- One event on the caller's standard output: a printed line (already
carrying its display marker) or a flush. -/
inductive OutEvent
  | write (s : Str)
  | flush
deriving DecidableEq

/-- Observable behaviour of one `_stream_output` run: the ordered
standard-output events and whether the pipe was closed. -/
structure StreamResult where
  events : List OutEvent
  closed : Bool
deriving DecidableEq

/-- The loop body of `_stream_output` (lines 45-51): read byte lines
until a `b''` sentinel, decode each, `rstrip` it, print non-empty
results with the marker prepended, flushing after each print.  The
`decode` argument embeds `bytes.decode('utf-8', errors='replace')`,
which is total (malformed bytes become replacement characters), so the
`except` clause is never reached by decoding. -/
def streamLines (decode : List Nat → Str) (pfx : Str) : List (List Nat) → List OutEvent
  | [] => []
  | l :: rest =>
    if l = [] then []
    else
      let s := stripRight (decode l)
      (if s = [] then [] else [.write (pfx ++ s), .flush]) ++ streamLines decode pfx rest

/-- Embedding of `_stream_output` (lines 40-56): a `none` pipe returns
immediately (nothing to close); otherwise the loop runs and the
`finally` clause closes the pipe. -/
def streamOutput (decode : List Nat → Str) (pipe : Option (List (List Nat)))
    (pfx : Str) : StreamResult :=
  match pipe with
  | none => ⟨[], false⟩
  | some ls => ⟨streamLines decode pfx ls, true⟩

/-- Well-formed ordinal part of an artifact line: nonempty, no
whitespace, no colon, no newline.  The decimal ordinals the planner
writes satisfy this. -/
def goodIdx (d : Str) : Prop :=
  d ≠ [] ∧ (∀ c ∈ d, isWs c = false) ∧ ':' ∉ d ∧ '\n' ∉ d

/-- Action text that survives the strip/split rule unchanged: nonempty,
on one line, containing no `': '` occurrence, not ending in
whitespace. -/
def goodText (t : Str) : Prop :=
  t ≠ [] ∧ '\n' ∉ t ∧ ¬ containsSub [':', ' '] t ∧ stripRight t = t

/-- One artifact line `<idx>: <text>` with its trailing newline. -/
def mkLine (p : Str × Str) : Str := p.1 ++ ':' :: ' ' :: (p.2 ++ ['\n'])

/-- An artifact file of the given indexed action texts, one per line. -/
def mkArtifact : List (Str × Str) → Str
  | [] => []
  | p :: ps => mkLine p ++ mkArtifact ps

/-- A sample environment for witnesses: writer succeeds, no timeout,
exit code 0, given artifact content, parser succeeds, validator says
valid. -/
def envOk (art : Str) : SolveEnv :=
  ⟨str "/tmp/run", str "main.py", none, false, 0, .ok art, none, .valid⟩

/-- A sample byte decoder for witnesses (ASCII bytes to characters). -/
def asciiDecode (l : List Nat) : Str := l.map Char.ofNat

theorem stripLeft_cons {c : Char} (xs : Str) (h : isWs c = false) :
    stripLeft (c :: xs) = c :: xs := by
  simp [stripLeft, List.dropWhile_cons, h]

theorem stripRight_eq_rdropWhile (s : Str) : stripRight s = s.rdropWhile isWs := rfl

theorem stripRight_append_nl (y : Str) : stripRight (y ++ ['\n']) = stripRight y := by
  rw [stripRight_eq_rdropWhile, stripRight_eq_rdropWhile]
  exact List.rdropWhile_concat_pos isWs y '\n' (by decide)

theorem stripRight_append_right {t : Str} (x : Str) (hne : t ≠ [])
    (hsr : stripRight t = t) : stripRight (x ++ t) = x ++ t := by
  rw [stripRight_eq_rdropWhile] at hsr ⊢
  rw [List.rdropWhile_eq_self_iff] at hsr ⊢
  intro hl
  rw [List.getLast_append' x t hne]
  exact hsr hne

theorem pyStrip_line {d t : Str} (hd : goodIdx d) (ht : goodText t) :
    pyStrip (d ++ ':' :: ' ' :: (t ++ ['\n'])) = d ++ ':' :: ' ' :: t := by
  obtain ⟨hdne, hdws, _, _⟩ := hd
  obtain ⟨htne, _, _, htsr⟩ := ht
  obtain ⟨c, d', rfl⟩ : ∃ c d', d = c :: d' := by
    cases d with
    | nil => exact absurd rfl hdne
    | cons c d' => exact ⟨c, d', rfl⟩
  simp only [pyStrip]
  rw [List.cons_append]
  rw [stripLeft_cons _ (hdws c (by simp))]
  have hassoc : c :: (d' ++ ':' :: ' ' :: (t ++ ['\n'])) =
      (((c :: d') ++ [':', ' ']) ++ t) ++ ['\n'] := by simp
  rw [hassoc, stripRight_append_nl, stripRight_append_right _ htne htsr]
  simp

theorem containsSub_cons {nd xs : Str} (c : Char) (h : containsSub nd xs) :
    containsSub nd (c :: xs) := by
  obtain ⟨s, u, rfl⟩ := h
  exact ⟨c :: s, u, rfl⟩

theorem splitCS_no_sep : ∀ t : Str, ¬ containsSub [':', ' '] t → splitCS t = [t] := by
  have key : ∀ n (t : Str), t.length ≤ n → ¬ containsSub [':', ' '] t →
      splitCS t = [t] := by
    intro n
    induction n with
    | zero =>
      intro t hlen _
      have : t = [] := by
        cases t with
        | nil => rfl
        | cons c cs => simp at hlen
      subst this
      rfl
    | succ n ih =>
      intro t hlen hnc
      match t with
      | [] => rfl
      | [c] => rfl
      | c1 :: c2 :: rest =>
        have hcc : ¬ (c1 = ':' ∧ c2 = ' ') := by
          rintro ⟨rfl, rfl⟩
          exact hnc ⟨[], rest, rfl⟩
        have htail : ¬ containsSub [':', ' '] (c2 :: rest) := fun h =>
          hnc (containsSub_cons c1 h)
        have hlen' : (c2 :: rest).length ≤ n := by
          simp at hlen ⊢
          omega
        simp only [splitCS, if_neg hcc]
        rw [ih (c2 :: rest) hlen' htail]
  exact fun t => key t.length t le_rfl

theorem splitCS_line : ∀ d : Str, ':' ∉ d → ∀ t : Str, ¬ containsSub [':', ' '] t →
    splitCS (d ++ ':' :: ' ' :: t) = [d, t] := by
  intro d
  induction d with
  | nil =>
    intro _ t hnc
    show splitCS (':' :: ' ' :: t) = [[], t]
    simp only [splitCS]
    simp [splitCS_no_sep t hnc]
  | cons c d' ih =>
    intro hcol t hnc
    have hc : c ≠ ':' := fun h => hcol (by simp [h])
    have hcol' : ':' ∉ d' := fun h => hcol (by simp [h])
    obtain ⟨x, xs, hxx⟩ : ∃ x xs, d' ++ ':' :: ' ' :: t = x :: xs := by
      cases d' with
      | nil => exact ⟨_, _, rfl⟩
      | cons e d'' => exact ⟨_, _, rfl⟩
    show splitCS (c :: (d' ++ ':' :: ' ' :: t)) = [c :: d', t]
    rw [hxx]
    have hif : ¬ (c = ':' ∧ x = ' ') := fun h => hc h.1
    simp only [splitCS, if_neg hif]
    rw [← hxx, ih hcol' t hnc]

theorem lineText_line {d t : Str} (hd : goodIdx d) (ht : goodText t) :
    lineText (mkLine (d, t)) = some t := by
  have hcol : ':' ∉ d := hd.2.2.1
  have hnc : ¬ containsSub [':', ' '] t := ht.2.2.1
  show lineText (d ++ ':' :: ' ' :: (t ++ ['\n'])) = some t
  rw [lineText, pyStrip_line hd ht, splitCS_line d hcol t hnc]
  rfl

theorem readlines_line {l : Str} (hnl : '\n' ∉ l) (rest : Str) :
    readlines (l ++ '\n' :: rest) = (l ++ ['\n']) :: readlines rest := by
  induction l with
  | nil => simp [readlines]
  | cons c l' ih =>
    have hc : c ≠ '\n' := fun h => hnl (by simp [h])
    have hnl' : '\n' ∉ l' := fun h => hnl (by simp [h])
    rw [List.cons_append]
    simp only [readlines, if_neg hc]
    rw [ih hnl']
    simp

theorem readlines_mkArtifact : ∀ ps : List (Str × Str),
    (∀ p ∈ ps, '\n' ∉ p.1 ∧ '\n' ∉ p.2) →
    readlines (mkArtifact ps) = ps.map mkLine := by
  intro ps
  induction ps with
  | nil => intro _; rfl
  | cons p ps ih =>
    intro h
    have hp := h p (by simp)
    have hline : mkLine p ++ mkArtifact ps =
        (p.1 ++ ':' :: ' ' :: p.2) ++ '\n' :: mkArtifact ps := by
      simp [mkLine]
    have hnl : '\n' ∉ p.1 ++ ':' :: ' ' :: p.2 := by
      simp [hp.1, hp.2]
    show readlines (mkLine p ++ mkArtifact ps) = mkLine p :: ps.map mkLine
    rw [hline, readlines_line hnl, ih (fun q hq => h q (by simp [hq]))]
    have : (p.1 ++ ':' :: ' ' :: p.2) ++ ['\n'] = mkLine p := by simp [mkLine]
    rw [this]

theorem lineTexts_map : ∀ ps : List (Str × Str),
    (∀ p ∈ ps, goodIdx p.1 ∧ goodText p.2) →
    lineTexts (ps.map mkLine) = some (ps.map Prod.snd) := by
  intro ps
  induction ps with
  | nil => intro _; rfl
  | cons p ps ih =>
    intro h
    have hp := h p (by simp)
    have hline : lineText (mkLine p) = some p.2 := lineText_line hp.1 hp.2
    show lineTexts (mkLine p :: ps.map mkLine) = some (p.2 :: ps.map Prod.snd)
    simp only [lineTexts, hline, ih (fun q hq => h q (by simp [hq]))]

theorem splitNL_no_nl : ∀ t : Str, '\n' ∉ t → splitNL t = [t] := by
  intro t
  induction t with
  | nil => intro _; rfl
  | cons c t' ih =>
    intro h
    have hc : c ≠ '\n' := fun hcc => h (by simp [hcc])
    simp only [splitNL, if_neg hc]
    rw [ih (fun hh => h (by simp [hh]))]

theorem splitNL_append {t : Str} (hnl : '\n' ∉ t) (rest : Str) :
    splitNL (t ++ '\n' :: rest) = t :: splitNL rest := by
  induction t with
  | nil => simp [splitNL]
  | cons c t' ih =>
    have hc : c ≠ '\n' := fun h => hnl (by simp [h])
    rw [List.cons_append]
    simp only [splitNL, if_neg hc]
    rw [ih (fun h => hnl (by simp [h]))]

theorem splitNL_joinNL : ∀ ts : List Str, ts ≠ [] → (∀ u ∈ ts, '\n' ∉ u) →
    splitNL (joinNL ts) = ts := by
  intro ts
  induction ts with
  | nil => intro h _; exact absurd rfl h
  | cons t rest ih =>
    intro _ h
    cases rest with
    | nil => exact splitNL_no_nl t (h t (by simp))
    | cons t' rest' =>
      show splitNL (t ++ '\n' :: joinNL (t' :: rest')) = t :: t' :: rest'
      rw [splitNL_append (h t (by simp))]
      rw [ih (by simp) (fun u hu => h u (by simp [hu]))]

theorem joinNL_ne_nil {t : Str} (rest : List Str) (hne : t ≠ []) :
    joinNL (t :: rest) ≠ [] := by
  cases rest with
  | nil => exact hne
  | cons t' rest' =>
    show t ++ '\n' :: joinNL (t' :: rest') ≠ []
    simp

theorem parse_joinNL : ∀ ts : List Str, (∀ u ∈ ts, u ≠ [] ∧ '\n' ∉ u) →
    parsePlanString (joinNL ts) = ts := by
  intro ts h
  cases ts with
  | nil => rfl
  | cons t rest =>
    have hne := joinNL_ne_nil rest (h t (by simp)).1
    rw [parsePlanString, if_neg hne]
    exact splitNL_joinNL (t :: rest) (by simp) (fun u hu => (h u hu).2)

theorem solve_writer_ok (args : ArgsMap) (env : SolveEnv) (hw : env.writerExc = none) :
    solve args env =
      ⟨(runPhase env).1,
        if alistHas args savePlanKey then alistPop args savePlanKey else args,
        (runPhase env).2.1,
        some (buildCommand env (alistGet args savePlanKey (defaultDump env))
          (if alistHas args savePlanKey then alistPop args savePlanKey else args)),
        some (alistGet args savePlanKey (defaultDump env)),
        (runPhase env).2.2⟩ := by
  rcases env with ⟨tmp, exe, w, tmo, rc, art, pe, vo⟩
  simp only at hw
  subst hw
  rfl

theorem solve_writer_exc (args : ArgsMap) (env : SolveEnv) (m : Str)
    (hw : env.writerExc = some m) :
    solve args env = ⟨internalError m, args, .notStarted, none, none, none⟩ := by
  rcases env with ⟨tmp, exe, w, tmo, rc, art, pe, vo⟩
  simp only at hw
  subst hw
  rfl

theorem runPhase_timeout (env : SolveEnv) (ht : env.timedOut = true) :
    runPhase env =
      (⟨.TIMEOUT, none, engineName, [⟨.INFO, timeoutMsg⟩]⟩, .killed, none) := by
  simp [runPhase, ht]

theorem runPhase_badRc (env : SolveEnv) (ht : env.timedOut = false)
    (hrc : env.returnCode ≠ 0) :
    runPhase env =
      (internalError (errorMsg env.returnCode), .exited env.returnCode, none) := by
  simp [runPhase, ht, hrc]

theorem runPhase_readErr (env : SolveEnv) (m : Str) (ht : env.timedOut = false)
    (hrc : env.returnCode = 0) (ha : env.artifact = .error m) :
    runPhase env = (internalError m, .exited 0, none) := by
  simp [runPhase, ht, hrc, ha]

theorem runPhase_indexErr (env : SolveEnv) (content : Str) (ht : env.timedOut = false)
    (hrc : env.returnCode = 0) (ha : env.artifact = .ok content)
    (hlt : lineTexts (readlines content) = none) :
    runPhase env = (internalError indexErrMsg, .exited 0, none) := by
  simp [runPhase, ht, hrc, ha, hlt]

theorem runPhase_parserExc (env : SolveEnv) (content : Str) (ts : List Str) (m : Str)
    (ht : env.timedOut = false) (hrc : env.returnCode = 0)
    (ha : env.artifact = .ok content)
    (hlt : lineTexts (readlines content) = some ts)
    (hp : env.parserExc = some m) :
    runPhase env = (internalError m, .exited 0, some (joinNL ts)) := by
  simp [runPhase, ht, hrc, ha, hlt, hp]

theorem runPhase_valid (env : SolveEnv) (content : Str) (ts : List Str)
    (ht : env.timedOut = false) (hrc : env.returnCode = 0)
    (ha : env.artifact = .ok content)
    (hlt : lineTexts (readlines content) = some ts)
    (hp : env.parserExc = none) (hv : env.validatorOutcome = .valid) :
    runPhase env =
      (⟨.SOLVED_SATISFICING, some (parsePlanString (joinNL ts)), engineName, []⟩,
        .exited 0, some (joinNL ts)) := by
  simp [runPhase, ht, hrc, ha, hlt, hp, hv, validatePlan]

theorem runPhase_notValid (env : SolveEnv) (content : Str) (ts : List Str)
    (ht : env.timedOut = false) (hrc : env.returnCode = 0)
    (ha : env.artifact = .ok content)
    (hlt : lineTexts (readlines content) = some ts)
    (hp : env.parserExc = none) (hv : env.validatorOutcome ≠ .valid) :
    runPhase env =
      (⟨.SOLVED_SATISFICING, some [], engineName, [⟨.WARNING, warnMsg⟩]⟩,
        .exited 0, some (joinNL ts)) := by
  have hvb : validatePlan env.validatorOutcome = false := by
    cases hvo : env.validatorOutcome with
    | valid => exact absurd hvo hv
    | invalid => rfl
    | raisedExc => rfl
  simp [runPhase, ht, hrc, ha, hlt, hp, hvb]

theorem alistPop_ne : ∀ (m : ArgsMap) (k : Str), ∀ q ∈ alistPop m k, q.1 ≠ k := by
  intro m k
  induction m with
  | nil => intro q hq; simp [alistPop] at hq
  | cons p rest ih =>
    intro q hq
    by_cases hp : p.1 = k
    · rw [alistPop, if_pos hp] at hq
      exact ih q hq
    · rw [alistPop, if_neg hp] at hq
      cases hq with
      | head => exact hp
      | tail _ hq' => exact ih q hq'

theorem alistHas_pop (m : ArgsMap) (k : Str) : alistHas (alistPop m k) k = false := by
  induction m with
  | nil => rfl
  | cons p rest ih =>
    by_cases hp : p.1 = k
    · rw [alistPop, if_pos hp]
      exact ih
    · rw [alistPop, if_neg hp]
      simp [alistHas, hp, ih]

theorem alistPop_of_not_has (m : ArgsMap) (k : Str) (h : alistHas m k = false) :
    alistPop m k = m := by
  induction m with
  | nil => rfl
  | cons p rest ih =>
    simp [alistHas] at h
    rw [alistPop, if_neg h.1, ih h.2]

theorem alistGet_of_not_has (m : ArgsMap) (k d : Str) (h : alistHas m k = false) :
    alistGet m k d = d := by
  induction m with
  | nil => rfl
  | cons p rest ih =>
    simp [alistHas] at h
    rw [alistGet, if_neg h.1]
    exact ih h.2

theorem alistGet_append : ∀ (pre : ArgsMap) (k v : Str) (post : ArgsMap) (d : Str),
    (∀ q ∈ pre, q.1 ≠ k) → alistGet (pre ++ (k, v) :: post) k d = v := by
  intro pre
  induction pre with
  | nil => intro k v post d _; simp [alistGet]
  | cons p rest ih =>
    intro k v post d h
    rw [List.cons_append, alistGet, if_neg (h p (by simp))]
    exact ih k v post d (fun q hq => h q (by simp [hq]))

theorem ifpop_eq_pop (m : ArgsMap) (k : Str) :
    (if alistHas m k then alistPop m k else m) = alistPop m k := by
  by_cases h : alistHas m k
  · rw [if_pos h]
  · have hf : alistHas m k = false := by simpa using h
    rw [if_neg h, alistPop_of_not_has m k hf]

theorem digitChar_ne_paren : ∀ d, d < 10 → digitChar d ≠ '(' := by decide

theorem paren_not_mem_natDigitsAux : ∀ (fuel n : Nat) (acc : Str),
    '(' ∉ acc → '(' ∉ natDigitsAux fuel n acc := by
  intro fuel
  induction fuel with
  | zero => intro n acc h; exact h
  | succ fuel ih =>
    intro n acc h
    rw [natDigitsAux]
    by_cases hn : n = 0
    · rw [if_pos hn]; exact h
    · rw [if_neg hn]
      apply ih
      intro hmem
      rcases List.mem_cons.mp hmem with h1 | h2
      · exact digitChar_ne_paren (n % 10) (Nat.mod_lt n (by omega)) h1.symm
      · exact h h2

theorem paren_not_mem_natDigits (n : Nat) : '(' ∉ natDigits n := by
  rw [natDigits]
  by_cases h : n = 0
  · rw [if_pos h]; decide
  · rw [if_neg h]
    exact paren_not_mem_natDigitsAux n n [] (by simp)

theorem paren_not_mem_intStr (i : Int) : '(' ∉ intStr i := by
  rw [intStr]
  by_cases h : i < 0
  · rw [if_pos h]
    intro hmem
    rcases List.mem_cons.mp hmem with h1 | h2
    · exact absurd h1 (by decide)
    · exact paren_not_mem_natDigits _ h2
  · rw [if_neg h]
    exact paren_not_mem_natDigits _

theorem errorMsg_contains_code (rc : Int) : containsSub (intStr rc) (errorMsg rc) :=
  ⟨str "The planner failed with return code ",
    str "." ++ (if rc = -11 then segNote else []), by simp [errorMsg, List.append_assoc]⟩

theorem errorMsg_seg_of_neg11 : containsSub segNote (errorMsg (-11)) :=
  ⟨str "The planner failed with return code -11.", [], by decide⟩

theorem errorMsg_no_seg (rc : Int) (h : rc ≠ -11) :
    ¬ containsSub segNote (errorMsg rc) := by
  rintro ⟨s, u, heq⟩
  have hparen : '(' ∈ errorMsg rc := by
    rw [heq]
    have : '(' ∈ segNote := by decide
    simp [this]
  rw [errorMsg, if_neg h] at hparen
  simp at hparen
  rcases hparen with h1 | h2 | h3
  · exact absurd h1 (by decide)
  · exact paren_not_mem_intStr rc h2
  · exact absurd h3 (by decide)

/-- C2: for every nonzero exit code `c` (writer ok, no timeout),
`_solve` returns an InternalError outcome with no plan and a single
error-level log message containing the literal code; for `c = -11` the
message additionally contains the segmentation-fault note, and for all
other nonzero codes it does not. -/
theorem c2_exit_code (args : ArgsMap) (env : SolveEnv) (c : Int)
    (hw : env.writerExc = none) (ht : env.timedOut = false)
    (hc : env.returnCode = c) (h0 : c ≠ 0) :
    (solve args env).result =
      ⟨.INTERNAL_ERROR, none, engineName, [⟨.ERROR, errorMsg c⟩]⟩ ∧
    containsSub (intStr c) (errorMsg c) ∧
    (c = -11 → containsSub segNote (errorMsg c)) ∧
    (c ≠ -11 → ¬ containsSub segNote (errorMsg c)) := by
  subst hc
  refine ⟨?_, errorMsg_contains_code _, ?_, errorMsg_no_seg _⟩
  · rw [solve_writer_ok args env hw, runPhase_badRc env ht h0]
    rfl
  · intro h11
    rw [h11]
    exact errorMsg_seg_of_neg11

/-- Witness for C2 at exit codes 5 and -11. -/
theorem c2_exit_code_witness :
    ((solve [] { envOk [] with returnCode := 5 }).result =
        ⟨.INTERNAL_ERROR, none, engineName, [⟨.ERROR, errorMsg 5⟩]⟩ ∧
      containsSub (intStr 5) (errorMsg 5) ∧
      ((5 : Int) = -11 → containsSub segNote (errorMsg 5)) ∧
      ((5 : Int) ≠ -11 → ¬ containsSub segNote (errorMsg 5))) ∧
    ((solve [] { envOk [] with returnCode := -11 }).result =
        ⟨.INTERNAL_ERROR, none, engineName, [⟨.ERROR, errorMsg (-11)⟩]⟩ ∧
      containsSub (intStr (-11)) (errorMsg (-11)) ∧
      ((-11 : Int) = -11 → containsSub segNote (errorMsg (-11))) ∧
      ((-11 : Int) ≠ -11 → ¬ containsSub segNote (errorMsg (-11)))) :=
  ⟨c2_exit_code [] _ 5 rfl rfl rfl (by decide),
    c2_exit_code [] _ (-11) rfl rfl rfl (by decide)⟩

/-- C4: if the child does not exit before the deadline (writer ok),
`_solve` returns a TimedOut outcome with no plan and a single
informational log entry, and the child has been killed, hence is no
longer running. -/
theorem c4_timeout (args : ArgsMap) (env : SolveEnv)
    (hw : env.writerExc = none) (ht : env.timedOut = true) :
    (solve args env).result =
      ⟨.TIMEOUT, none, engineName, [⟨.INFO, timeoutMsg⟩]⟩ ∧
    (solve args env).result.plan = none ∧
    (solve args env).child = .killed ∧
    (solve args env).child ≠ .running := by
  rw [solve_writer_ok args env hw, runPhase_timeout env ht]
  refine ⟨rfl, rfl, rfl, ?_⟩
  intro h
  exact ChildState.noConfusion h

/-- Witness for C4. -/
theorem c4_timeout_witness :
    (solve [] { envOk [] with timedOut := true }).result =
      ⟨.TIMEOUT, none, engineName, [⟨.INFO, timeoutMsg⟩]⟩ ∧
    (solve [] { envOk [] with timedOut := true }).result.plan = none ∧
    (solve [] { envOk [] with timedOut := true }).child = .killed ∧
    (solve [] { envOk [] with timedOut := true }).child ≠ .running :=
  c4_timeout [] _ rfl rfl

/-- C5: every exception of the PDDL writer, the artifact reader or the
plan parser is caught by the boundary `try`/`except` and converted into
an InternalError outcome with no plan and a single error-level log
entry carrying the exception's message; none propagates (the embedding
is a total function). -/
theorem c5_catch_all (args : ArgsMap) (env : SolveEnv) :
    (∀ m, env.writerExc = some m →
      (solve args env).result = internalError m) ∧
    (∀ m, env.writerExc = none → env.timedOut = false → env.returnCode = 0 →
      env.artifact = .error m → (solve args env).result = internalError m) ∧
    (∀ m content ts, env.writerExc = none → env.timedOut = false →
      env.returnCode = 0 → env.artifact = .ok content →
      lineTexts (readlines content) = some ts → env.parserExc = some m →
      (solve args env).result = internalError m) := by
  refine ⟨?_, ?_, ?_⟩
  · intro m hw
    rw [solve_writer_exc args env m hw]
  · intro m hw ht hrc ha
    rw [solve_writer_ok args env hw, runPhase_readErr env m ht hrc ha]
  · intro m content ts hw ht hrc ha hlt hp
    rw [solve_writer_ok args env hw, runPhase_parserExc env content ts m ht hrc ha hlt hp]

/-- Witness for C5: a writer exception, a missing artifact, and a
parser exception each produce the corresponding InternalError. -/
theorem c5_catch_all_witness :
    (solve [] { envOk [] with writerExc := some (str "boom") }).result =
      internalError (str "boom") ∧
    (solve [] { envOk [] with artifact := .error (str "no such file") }).result =
      internalError (str "no such file") ∧
    (solve [] { envOk (str "0: (a)\n") with parserExc := some (str "parse error") }).result =
      internalError (str "parse error") :=
  ⟨(c5_catch_all [] _).1 _ rfl,
    (c5_catch_all [] _).2.1 _ rfl rfl rfl rfl,
    (c5_catch_all [] _).2.2 _ (str "0: (a)\n") [str "(a)"] rfl rfl rfl rfl (by decide) rfl⟩

/-- C6: the command line handed to the process launcher is exactly the
base invocation (interpreter, stored script path, `-o` domain, `-f`
problem, `--save-plan` resolved artifact path) followed by the
remaining caller-supplied flag/value pairs verbatim in mapping order;
a caller-supplied `--save-plan` value becomes the artifact path and the
key never reappears among the appended pairs. -/
theorem c6_command_line (args : ArgsMap) (env : SolveEnv)
    (hw : env.writerExc = none) :
    (solve args env).command =
      some (buildCommand env (alistGet args savePlanKey (defaultDump env))
        (alistPop args savePlanKey)) ∧
    (solve args env).savePlanPath =
      some (alistGet args savePlanKey (defaultDump env)) ∧
    (∀ q ∈ alistPop args savePlanKey, q.1 ≠ savePlanKey) ∧
    (∀ pre v post, args = pre ++ (savePlanKey, v) :: post →
      (∀ q ∈ pre, q.1 ≠ savePlanKey) →
      alistGet args savePlanKey (defaultDump env) = v) := by
  refine ⟨?_, ?_, alistPop_ne args savePlanKey, ?_⟩
  · rw [solve_writer_ok args env hw, ifpop_eq_pop]
  · rw [solve_writer_ok args env hw]
  · rintro pre v post rfl hpre
    exact alistGet_append pre savePlanKey v post _ hpre

/-- Witness for C6 with one extra flag before and one after a
caller-supplied `--save-plan`. -/
theorem c6_command_line_witness :
    (solve [(str "-t", str "100"), (savePlanKey, str "/tmp/plan.out"),
        (str "-v", str "1")] (envOk [])).command =
      some (buildCommand (envOk []) (str "/tmp/plan.out")
        [(str "-t", str "100"), (str "-v", str "1")]) :=
  ((c6_command_line [(str "-t", str "100"), (savePlanKey, str "/tmp/plan.out"),
      (str "-v", str "1")] (envOk []) rfl).1).trans (by decide)

/-- C10: when `--save-plan` is present in the stored options and the
writer succeeds, the call pops the key from the mapping, so a second
call on the mutated mapping resolves the artifact path to the default
temporary-directory path. -/
theorem c10_args_mutation (args : ArgsMap) (env : SolveEnv)
    (hw : env.writerExc = none) (hhas : alistHas args savePlanKey = true) :
    (solve args env).args = alistPop args savePlanKey ∧
    alistHas ((solve args env).args) savePlanKey = false ∧
    (∀ env2 : SolveEnv, env2.writerExc = none →
      (solve ((solve args env).args) env2).savePlanPath =
        some (defaultDump env2)) := by
  rw [solve_writer_ok args env hw, ifpop_eq_pop]
  refine ⟨rfl, alistHas_pop args savePlanKey, ?_⟩
  intro env2 hw2
  rw [solve_writer_ok _ env2 hw2]
  show some (alistGet (alistPop args savePlanKey) savePlanKey (defaultDump env2)) =
    some (defaultDump env2)
  rw [alistGet_of_not_has _ _ _ (alistHas_pop args savePlanKey)]

/-- Witness for C10. -/
theorem c10_args_mutation_witness :
    (solve [(savePlanKey, str "/tmp/plan.out")] (envOk [])).args = [] ∧
    alistHas ((solve [(savePlanKey, str "/tmp/plan.out")] (envOk [])).args)
      savePlanKey = false ∧
    (solve ((solve [(savePlanKey, str "/tmp/plan.out")] (envOk [])).args)
      (envOk [])).savePlanPath = some (str "/tmp/run/plan.dump") :=
  ⟨((c10_args_mutation [(savePlanKey, str "/tmp/plan.out")] (envOk []) rfl
      (by decide)).1).trans (by decide),
    (c10_args_mutation [(savePlanKey, str "/tmp/plan.out")] (envOk []) rfl
      (by decide)).2.1,
    ((c10_args_mutation [(savePlanKey, str "/tmp/plan.out")] (envOk []) rfl
      (by decide)).2.2 (envOk []) rfl).trans (by decide)⟩

theorem getD_map_snd : ∀ (ps : List (Str × Str)) (i : Nat), i < ps.length →
    (ps.map Prod.snd).getD i [] = (ps.getD i ([], [])).2 := by
  intro ps
  induction ps with
  | nil => intro i hi; simp at hi
  | cons p rest ih =>
    intro i hi
    cases i with
    | zero => rfl
    | succ j =>
      simp only [List.map_cons, List.getD_cons_succ]
      exact ih j (by simpa using hi)

theorem not_containsSub_of_no_colon {t : Str} (h : ':' ∉ t) :
    ¬ containsSub [':', ' '] t := by
  rintro ⟨s, u, rfl⟩
  exact h (by simp)

/-- C1 (amended): for every artifact consisting of well-formed lines
`<idx>: <text_i>` whose texts are nonempty, lie on one line, contain no
`': '` occurrence and do not end in whitespace, the plan string handed
by `_solve` to the external plan parser is the newline-join of the
texts, and the returned plan is exactly the text list: its length is
`n` and its `i`-th element equals `text_i`. -/
theorem c1_parse_round_trip (args : ArgsMap) (ps : List (Str × Str)) (env : SolveEnv)
    (hgood : ∀ p ∈ ps, goodIdx p.1 ∧ goodText p.2)
    (hw : env.writerExc = none) (ht : env.timedOut = false)
    (hrc : env.returnCode = 0) (ha : env.artifact = .ok (mkArtifact ps))
    (hp : env.parserExc = none) (hv : env.validatorOutcome = .valid) :
    (solve args env).parserInput = some (joinNL (ps.map Prod.snd)) ∧
    (solve args env).result.plan = some (ps.map Prod.snd) ∧
    ((solve args env).result.plan.getD []).length = ps.length ∧
    ∀ i, i < ps.length →
      ((solve args env).result.plan.getD []).getD i [] = (ps.getD i ([], [])).2 := by
  have hnl : ∀ p ∈ ps, '\n' ∉ p.1 ∧ '\n' ∉ p.2 := fun p hp2 =>
    ⟨(hgood p hp2).1.2.2.2, (hgood p hp2).2.2.1⟩
  have hlt : lineTexts (readlines (mkArtifact ps)) = some (ps.map Prod.snd) := by
    rw [readlines_mkArtifact ps hnl]
    exact lineTexts_map ps hgood
  have hparse : parsePlanString (joinNL (ps.map Prod.snd)) = ps.map Prod.snd := by
    apply parse_joinNL
    intro u hu
    obtain ⟨p, hp2, rfl⟩ := List.mem_map.mp hu
    exact ⟨(hgood p hp2).2.1, (hgood p hp2).2.2.1⟩
  rw [solve_writer_ok args env hw,
    runPhase_valid env (mkArtifact ps) (ps.map Prod.snd) ht hrc ha hlt hp hv]
  refine ⟨rfl, by simp [hparse], ?_, ?_⟩
  · show (parsePlanString (joinNL (ps.map Prod.snd))).length = ps.length
    rw [hparse, List.length_map]
  · intro i hi
    show (parsePlanString (joinNL (ps.map Prod.snd))).getD i [] = (ps.getD i ([], [])).2
    rw [hparse]
    exact getD_map_snd ps i hi

/-- Witness for C1 (amended) on the two-line artifact
`0: (move a b)`, `1: (move b c)`. -/
theorem c1_parse_round_trip_witness :
    (solve [] (envOk (mkArtifact [(str "0", str "(move a b)"),
        (str "1", str "(move b c)")]))).parserInput =
      some (joinNL [str "(move a b)", str "(move b c)"]) ∧
    (solve [] (envOk (mkArtifact [(str "0", str "(move a b)"),
        (str "1", str "(move b c)")]))).result.plan =
      some [str "(move a b)", str "(move b c)"] := by
  have hg : ∀ p ∈ [(str "0", str "(move a b)"), (str "1", str "(move b c)")],
      goodIdx p.1 ∧ goodText p.2 := by
    intro p hp
    rcases List.mem_cons.mp hp with rfl | hp2
    · exact ⟨⟨by decide, by decide, by decide, by decide⟩,
        ⟨by decide, by decide, not_containsSub_of_no_colon (by decide), by decide⟩⟩
    rcases List.mem_cons.mp hp2 with rfl | hp3
    · exact ⟨⟨by decide, by decide, by decide, by decide⟩,
        ⟨by decide, by decide, not_containsSub_of_no_colon (by decide), by decide⟩⟩
    simp at hp3
  have h := c1_parse_round_trip [] [(str "0", str "(move a b)"),
    (str "1", str "(move b c)")] (envOk (mkArtifact [(str "0", str "(move a b)"),
    (str "1", str "(move b c)")])) hg rfl rfl rfl rfl rfl rfl
  exact ⟨h.1, h.2.1⟩

/-- C1 is false as stated: on the single well-formed line
`0: (move a: b)` the action text `(move a: b)` contains `': '`, and the
code keeps only the segment between the first and second occurrence, so
the parsed plan's only element is `(move a`, not the full text. -/
theorem c1_counterexample :
    (solve [] (envOk (str "0: (move a: b)\n"))).result.plan =
      some [str "(move a"] ∧
    str "(move a" ≠ str "(move a: b)" := by decide

/-- C3 (amended): whenever the validator reports anything but valid
(invalid, unparseable, or an exception), `_solve` still returns status
SOLVED_SATISFICING, but with an empty plan and exactly one
warning-level log entry whose message is
`Plan validation failed - the plan may not be correct`. -/
theorem c3_invalid_plan (args : ArgsMap) (env : SolveEnv) (content : Str)
    (ts : List Str) (hw : env.writerExc = none) (ht : env.timedOut = false)
    (hrc : env.returnCode = 0) (ha : env.artifact = .ok content)
    (hlt : lineTexts (readlines content) = some ts)
    (hp : env.parserExc = none) (hv : env.validatorOutcome ≠ .valid) :
    (solve args env).result.status = .SOLVED_SATISFICING ∧
    (solve args env).result.plan = some [] ∧
    (solve args env).result.log_messages =
      [⟨.WARNING, str "Plan validation failed - the plan may not be correct"⟩] := by
  rw [solve_writer_ok args env hw,
    runPhase_notValid env content ts ht hrc ha hlt hp hv]
  exact ⟨rfl, rfl, rfl⟩

/-- Witness for C3 (amended) with an invalid validator verdict. -/
theorem c3_invalid_plan_witness :
    (solve [] { envOk (str "0: (a)\n") with
        validatorOutcome := .invalid }).result.status = .SOLVED_SATISFICING ∧
    (solve [] { envOk (str "0: (a)\n") with
        validatorOutcome := .invalid }).result.plan = some [] ∧
    (solve [] { envOk (str "0: (a)\n") with
        validatorOutcome := .invalid }).result.log_messages =
      [⟨.WARNING, str "Plan validation failed - the plan may not be correct"⟩] :=
  c3_invalid_plan [] _ (str "0: (a)\n") [str "(a)"] rfl rfl rfl rfl (by decide)
    rfl (by decide)

/-- C3 is false as stated: the single warning message the code attaches
is `Plan validation failed - the plan may not be correct`, which is not
the string `plan validation failed — the plan may not be correct`
quoted by the claim (capitalisation and dash differ). -/
theorem c3_counterexample :
    (solve [] { envOk (str "0: (a)\n") with
        validatorOutcome := .invalid }).result.log_messages =
      [⟨.WARNING, str "Plan validation failed - the plan may not be correct"⟩] ∧
    str "Plan validation failed - the plan may not be correct" ≠
      str "plan validation failed — the plan may not be correct" := by decide

/-- C7: concrete sunny-day scenario: artifact `0: (move a b)\n1: (move b c)`,
no timeout, exit code 0, validator valid; the outcome is
SOLVED_SATISFICING with exactly the two parsed actions, equal to the
plan parsed from the artifact, and zero log entries. -/
theorem c7_two_action_scenario :
    (solve [] (envOk (str "0: (move a b)\n1: (move b c)"))).result =
      ⟨.SOLVED_SATISFICING, some [str "(move a b)", str "(move b c)"],
        engineName, []⟩ ∧
    (solve [] (envOk (str "0: (move a b)\n1: (move b c)"))).parserInput =
      some (str "(move a b)\n(move b c)") ∧
    (solve [] (envOk (str "0: (move a b)\n1: (move b c)"))).result.plan =
      some (parsePlanString (str "(move a b)\n(move b c)")) := by decide

theorem streamLines_join (decode : List Nat → Str) (pfx : Str) :
    ∀ ls : List (List Nat), [] ∉ ls →
      streamLines decode pfx ls =
        (ls.map (fun l =>
          if stripRight (decode l) = [] then []
          else [OutEvent.write (pfx ++ stripRight (decode l)),
            OutEvent.flush])).flatten := by
  intro ls
  induction ls with
  | nil => intro _; rfl
  | cons l rest ih =>
    intro h
    have hl : l ≠ [] := fun hh => h (by simp [hh])
    have hrest : [] ∉ rest := fun hh => h (by simp [hh])
    simp only [streamLines, if_neg hl, List.map_cons, List.flatten_cons]
    rw [ih hrest]

theorem streamLines_mem (decode : List Nat → Str) (pfx : Str) :
    ∀ ls : List (List Nat), [] ∉ ls → ∀ l ∈ ls, stripRight (decode l) ≠ [] →
      OutEvent.write (pfx ++ stripRight (decode l)) ∈ streamLines decode pfx ls := by
  intro ls
  induction ls with
  | nil => intro _ l hl; simp at hl
  | cons l' rest ih =>
    intro h l hl hs
    have hl' : l' ≠ [] := fun hh => h (by simp [hh])
    have hrest : [] ∉ rest := fun hh => h (by simp [hh])
    simp only [streamLines, if_neg hl']
    rcases List.mem_cons.mp hl with rfl | hmem
    · rw [if_neg hs]
      simp
    · rcases hcase : decide (stripRight (decode l') = []) with _ | _
      · have : ¬ stripRight (decode l') = [] := of_decide_eq_false hcase
        rw [if_neg this]
        exact List.mem_append_right _ (ih hrest l hmem hs)
      · have : stripRight (decode l') = [] := of_decide_eq_true hcase
        rw [if_pos this]
        exact List.mem_append_right _ (ih hrest l hmem hs)

/-- C8: for a present pipe whose reads never yield the empty sentinel
mid-stream, `_stream_output` emits, in order, one prefixed write
followed by one flush for every line whose decoded `rstrip`-trimmed
text is non-empty, skips lines whose trimmed text is empty, and closes
the pipe when the stream is exhausted; decoding is total (replacement
characters), so no decoding failure aborts the stream. -/
theorem c8_stream_output (decode : List Nat → Str) (pfx : Str)
    (ls : List (List Nat)) (hne : [] ∉ ls) :
    (streamOutput decode (some ls) pfx).closed = true ∧
    (streamOutput decode (some ls) pfx).events =
      (ls.map (fun l =>
        if stripRight (decode l) = [] then []
        else [OutEvent.write (pfx ++ stripRight (decode l)),
          OutEvent.flush])).flatten ∧
    (∀ l ∈ ls, stripRight (decode l) ≠ [] →
      OutEvent.write (pfx ++ stripRight (decode l)) ∈
        (streamOutput decode (some ls) pfx).events) :=
  ⟨rfl, streamLines_join decode pfx ls hne, streamLines_mem decode pfx ls hne⟩

/-- Witness for C8: an ASCII line `hi`, a whitespace-only line, and a
line `yo` under the stderr marker `ERROR: `. -/
theorem c8_stream_output_witness :
    (streamOutput asciiDecode (some [[104, 105, 10], [32, 10], [121, 111, 10]])
      (str "ERROR: ")).closed = true ∧
    (streamOutput asciiDecode (some [[104, 105, 10], [32, 10], [121, 111, 10]])
      (str "ERROR: ")).events =
      [OutEvent.write (str "ERROR: hi"), OutEvent.flush,
        OutEvent.write (str "ERROR: yo"), OutEvent.flush] := by
  have h := c8_stream_output asciiDecode (str "ERROR: ")
    [[104, 105, 10], [32, 10], [121, 111, 10]] (by decide)
  exact ⟨h.1, h.2.1.trans (by decide)⟩

theorem runPhase_invariant (env : SolveEnv) :
    ((runPhase env).1.plan = none ↔
      (runPhase env).1.status = .TIMEOUT ∨
      (runPhase env).1.status = .INTERNAL_ERROR) ∧
    ((runPhase env).1.status = .SOLVED_SATISFICING →
      (runPhase env).1.plan ≠ none) ∧
    (runPhase env).1.engine_name = engineName := by
  simp only [runPhase]
  split
  · simp
  · split
    · simp [internalError]
    · split
      · simp [internalError]
      · split
        · simp [internalError]
        · split
          · simp [internalError]
          · split
            · simp
            · simp

/-- C9: in every outcome `_solve` returns, the plan is absent exactly
when the status is TIMEOUT or INTERNAL_ERROR, under SOLVED_SATISFICING
the plan is always present (possibly empty), and the engine name is
always the constant `patty`. -/
theorem c9_plan_none_iff (args : ArgsMap) (env : SolveEnv) :
    ((solve args env).result.plan = none ↔
      (solve args env).result.status = .TIMEOUT ∨
      (solve args env).result.status = .INTERNAL_ERROR) ∧
    ((solve args env).result.status = .SOLVED_SATISFICING →
      (solve args env).result.plan ≠ none) ∧
    (solve args env).result.engine_name = engineName := by
  cases hw : env.writerExc with
  | some m =>
    rw [solve_writer_exc args env m hw]
    simp [internalError]
  | none =>
    rw [solve_writer_ok args env hw]
    exact runPhase_invariant env

/-- Witness for C9 on a concrete successful run. -/
theorem c9_plan_none_iff_witness :
    ((solve [] (envOk (str "0: (a)\n"))).result.plan = none ↔
      (solve [] (envOk (str "0: (a)\n"))).result.status = .TIMEOUT ∨
      (solve [] (envOk (str "0: (a)\n"))).result.status = .INTERNAL_ERROR) ∧
    ((solve [] (envOk (str "0: (a)\n"))).result.status = .SOLVED_SATISFICING →
      (solve [] (envOk (str "0: (a)\n"))).result.plan ≠ none) ∧
    (solve [] (envOk (str "0: (a)\n"))).result.engine_name = engineName :=
  c9_plan_none_iff [] (envOk (str "0: (a)\n"))

end UpPatty
